import Mathlib

/-! ## Verification of the OpenMind local executor

A shallow embedding of `src/executor/app.py` and `src/executor/chain_client.py`
(the OpenMind local executor service), together with proofs about the
request-authentication protocol, the command extractor, the Chinese
transfer-intent parser, the batch chain executor, and the websocket
conversation session.

JSON values are modelled by the inductive `JVal`.  Python-specific semantics
(truthiness, `dict.get` with defaults, `int()` conversion, exceptions) are
modelled explicitly; exceptions that the Python code does not catch are
surfaced as `Except.error`.

Modelling notes (deliberate, documented approximations):
* JSON numbers are carried as integers; a decimal literal with a fractional
  part or exponent is truncated toward zero at parse time (the only numeric
  observations this code makes are `int()` conversion, which truncates toward
  zero, and truthiness).
* `str.strip()` / `str.lower()` are modelled by `pyStrip` / `pyLower`
  (ASCII); they agree with Python on ASCII, which is all the code relies on.
* `hmac.compare_digest(a.encode(), b.encode())` is modelled as string
  equality: UTF-8 encoding is injective and timing is not modelled.
-/

/-- A JSON value (the result of `json.loads`, or any payload handled by the
executor).  `jnum` carries an integer, see the modelling notes. -/
inductive JVal where
  | jnull
  | jbool (b : Bool)
  | jnum (n : Int)
  | jstr (s : String)
  | jarr (items : List JVal)
  | jobj (fields : List (String × JVal))

open JVal

/-- Python truthiness (`bool(v)`) of a JSON value: `None`, `False`, `0`, `""`,
`[]` and `{}` are falsy, everything else is truthy. -/
def jtruthy : JVal → Bool
  | jnull => false
  | jbool b => b
  | jnum n => n != 0
  | jstr s => s != ""
  | jarr items => !items.isEmpty
  | jobj fields => !fields.isEmpty

/-- Last binding of `key` in an association list (Python dicts built by
`json.loads` keep the last duplicate key). -/
def lookupLast : List (String × JVal) → String → Option JVal
  | [], _ => none
  | (k, v) :: rest, key =>
    match lookupLast rest key with
    | some r => some r
    | none => if k = key then some v else none

/-- `d.get(key)` on a dict value; `none` when the key is absent (or the value
is not a dict, in which case callers model the raised `AttributeError`). -/
def pyGet : JVal → String → Option JVal
  | jobj fields, key => lookupLast fields key
  | _, _ => none

/-- `d.get(key, dflt)` on a dict value. -/
def pyGetD (v : JVal) (key : String) (dflt : JVal) : JVal :=
  (pyGet v key).getD dflt

/-- Remove every binding of `key` (models `dict.pop(key, None)` on dicts with
unique keys). -/
def eraseKey (fields : List (String × JVal)) (key : String) : List (String × JVal) :=
  fields.filter (fun kv => kv.1 ≠ key)

/-- Digit run: maximal prefix of ASCII digits, with the rest. -/
def takeDigits : List Char → List Char × List Char
  | c :: cs =>
    if c.isDigit then
      let (ds, r) := takeDigits cs
      (c :: ds, r)
    else ([], c :: cs)
  | [] => ([], [])

/-- Numeric value of a list of ASCII digits. -/
def digitsToNat (ds : List Char) : Nat :=
  ds.foldl (fun acc c => acc * 10 + (c.toNat - 48)) 0

/-- Python/ASCII whitespace (`str.strip`'s set, ASCII part). -/
def isPySpace (c : Char) : Bool :=
  c = ' ' ∨ c = '\t' ∨ c = '\n' ∨ c = '\r' ∨ c = '\x0b' ∨ c = '\x0c'

/-- Drop leading whitespace. -/
def dropWs : List Char → List Char
  | c :: cs => if isPySpace c then dropWs cs else c :: cs
  | [] => []

/-- `s.strip()`: remove leading and trailing whitespace (ASCII set; the code's
inputs contain no exotic Unicode whitespace). -/
def pyStrip (s : String) : String :=
  String.mk (dropWs ((dropWs s.data.reverse).reverse))

/-- `int(s)` on a string: optional surrounding whitespace, an optional sign and
a nonempty digit run (Python's digit-group underscores are not modelled).
`none` models the raised `ValueError`. -/
def pyIntOfStr (s : String) : Option Int :=
  let cs := (pyStrip s).data
  let (sign, body) : Int × List Char :=
    match cs with
    | '-' :: rest => (-1, rest)
    | '+' :: rest => (1, rest)
    | _ => (1, cs)
  match takeDigits body with
  | (ds, rest) =>
    if ds ≠ [] ∧ rest = [] then some (sign * (digitsToNat ds : Int)) else none

/-- `int(v)` on a JSON value; `none` models the raised `TypeError`/`ValueError`
(lists, dicts and `None` are not convertible). -/
def pyInt : JVal → Option Int
  | jnum n => some n
  | jbool b => some (if b then 1 else 0)
  | jstr s => pyIntOfStr s
  | _ => none

/-- Lower-case an ASCII letter (`str.lower()`, ASCII part — the code only
tests for the ASCII keywords `usdc` and `eth` in the result). -/
def pyLowerChar (c : Char) : Char :=
  if 'A' ≤ c ∧ c ≤ 'Z' then Char.ofNat (c.toNat + 32) else c

/-- `s.lower()` (ASCII part). -/
def pyLower (s : String) : String :=
  String.mk (s.data.map pyLowerChar)

/-- Substring test (`pat in hay` on Python strings), over character lists. -/
def containsSub (hay pat : List Char) : Bool :=
  if pat.isPrefixOf hay then true
  else
    match hay with
    | [] => false
    | _ :: t => containsSub t pat

/-- `pat in hay` on strings. -/
def strContains (hay pat : String) : Bool :=
  containsSub hay.data pat.data

/-- JSON whitespace. -/
def skipJsonWs : List Char → List Char
  | c :: cs =>
    if c = ' ' ∨ c = '\t' ∨ c = '\n' ∨ c = '\r' then skipJsonWs cs else c :: cs
  | [] => []

/-- Value of a hex digit. -/
def hexDigitVal (c : Char) : Option Nat :=
  if '0' ≤ c ∧ c ≤ '9' then some (c.toNat - 48)
  else if 'a' ≤ c ∧ c ≤ 'f' then some (c.toNat - 87)
  else if 'A' ≤ c ∧ c ≤ 'F' then some (c.toNat - 55)
  else none

/-- Four hex digits to a number. -/
def hex4 (a b c d : Char) : Option Nat := do
  let x1 ← hexDigitVal a
  let x2 ← hexDigitVal b
  let x3 ← hexDigitVal c
  let x4 ← hexDigitVal d
  pure (((x1 * 16 + x2) * 16 + x3) * 16 + x4)

/-- Body of a JSON string literal after the opening quote: the decoded
characters and the input after the closing quote.  Strict mode: raw control
characters are rejected; `\uXXXX` escapes combine surrogate pairs (a lone
surrogate is rejected here, where Python would keep it — Lean `Char` cannot
represent one; no input in this development contains one). -/
def parseStringChars : List Char → Option (List Char × List Char)
  | '"' :: rest => some ([], rest)
  | '\\' :: 'u' :: a :: b :: c :: d :: rest => do
    let u1 ← hex4 a b c d
    if u1 < 0xD800 ∨ 0xE000 ≤ u1 then
      let (chars, r) ← parseStringChars rest
      pure (Char.ofNat u1 :: chars, r)
    else if u1 < 0xDC00 then
      match rest with
      | '\\' :: 'u' :: a2 :: b2 :: c2 :: d2 :: rest2 => do
        let u2 ← hex4 a2 b2 c2 d2
        if 0xDC00 ≤ u2 ∧ u2 < 0xE000 then
          let (chars, r) ← parseStringChars rest2
          pure (Char.ofNat (0x10000 + (u1 - 0xD800) * 0x400 + (u2 - 0xDC00)) :: chars, r)
        else none
      | _ => none
    else none
  | '\\' :: e :: rest => do
    let c ←
      if e = '"' then some '"'
      else if e = '\\' then some '\\'
      else if e = '/' then some '/'
      else if e = 'b' then some (Char.ofNat 8)
      else if e = 'f' then some (Char.ofNat 12)
      else if e = 'n' then some '\n'
      else if e = 'r' then some '\r'
      else if e = 't' then some '\t'
      else none
    let (chars, r) ← parseStringChars rest
    pure (c :: chars, r)
  | c :: rest =>
    if c.toNat < 0x20 then none
    else do
      let (chars, r) ← parseStringChars rest
      pure (c :: chars, r)
  | [] => none

/-- Exponent tail of a JSON number (after `e`/`E`). -/
def parseExpTail (cs : List Char) : Option (Int × List Char) :=
  let (esign, cs1) : Int × List Char :=
    match cs with
    | '+' :: r => (1, r)
    | '-' :: r => (-1, r)
    | _ => (1, cs)
  match takeDigits cs1 with
  | ([], _) => none
  | (eds, r) => some (esign * (digitsToNat eds : Int), r)

/-- A JSON number literal, truncated toward zero (see the modelling notes). -/
def parseJsonNumber (cs : List Char) : Option (JVal × List Char) :=
  let (neg, cs1) : Bool × List Char :=
    match cs with
    | '-' :: r => (true, r)
    | _ => (false, cs)
  match takeDigits cs1 with
  | ([], _) => none
  | (ids, r1) =>
    if 2 ≤ ids.length ∧ ids.headD '0' = '0' then none
    else
      let contFrac : Option (List Char × List Char) :=
        match r1 with
        | '.' :: r =>
          match takeDigits r with
          | ([], _) => none
          | (fds, r2) => some (fds, r2)
        | _ => some ([], r1)
      match contFrac with
      | none => none
      | some (fds, r2) =>
        let contExp : Option (Int × List Char) :=
          match r2 with
          | 'e' :: r => parseExpTail r
          | 'E' :: r => parseExpTail r
          | _ => some (0, r2)
        match contExp with
        | none => none
        | some (ex, r3) =>
          let mant : Nat := digitsToNat (ids ++ fds)
          let scale : Int := ex - (fds.length : Int)
          let mag : Nat :=
            if 0 ≤ scale then mant * 10 ^ scale.toNat
            else mant / 10 ^ (-scale).toNat
          some (jnum (if neg then -(mag : Int) else (mag : Int)), r3)

mutual

/-- A JSON value at the head of the input (leading whitespace already
consumed); returns the value and the remaining input. -/
def parseJsonValue : Nat → List Char → Option (JVal × List Char)
  | 0, _ => none
  | Nat.succ f, cs =>
    match cs with
    | 'n' :: 'u' :: 'l' :: 'l' :: rest => some (jnull, rest)
    | 't' :: 'r' :: 'u' :: 'e' :: rest => some (jbool true, rest)
    | 'f' :: 'a' :: 'l' :: 's' :: 'e' :: rest => some (jbool false, rest)
    | '"' :: rest =>
      match parseStringChars rest with
      | some (chars, r) => some (jstr (String.mk chars), r)
      | none => none
    | '[' :: rest =>
      match skipJsonWs rest with
      | ']' :: r => some (jarr [], r)
      | r =>
        match parseJsonItems f r with
        | some (items, r2) => some (jarr items, r2)
        | none => none
    | c :: rest =>
      if c = '\x7b' then
        match skipJsonWs rest with
        | c2 :: r =>
          if c2 = '\x7d' then some (jobj [], r)
          else
            match parseJsonMembers f (c2 :: r) with
            | some (ms, r2) => some (jobj ms, r2)
            | none => none
        | [] => none
      else parseJsonNumber (c :: rest)
    | [] => none

/-- Nonempty comma-separated array items up to the closing bracket. -/
def parseJsonItems : Nat → List Char → Option (List JVal × List Char)
  | 0, _ => none
  | Nat.succ f, cs =>
    match parseJsonValue f cs with
    | none => none
    | some (v, r) =>
      match skipJsonWs r with
      | ',' :: r2 =>
        match parseJsonItems f (skipJsonWs r2) with
        | some (vs, r3) => some (v :: vs, r3)
        | none => none
      | ']' :: r2 => some ([v], r2)
      | _ => none

/-- Nonempty comma-separated object members up to the closing brace. -/
def parseJsonMembers : Nat → List Char → Option (List (String × JVal) × List Char)
  | 0, _ => none
  | Nat.succ f, cs =>
    match cs with
    | '"' :: rest =>
      match parseStringChars rest with
      | none => none
      | some (kchars, r) =>
        match skipJsonWs r with
        | ':' :: r2 =>
          match parseJsonValue f (skipJsonWs r2) with
          | none => none
          | some (v, r3) =>
            match skipJsonWs r3 with
            | ',' :: r4 =>
              match parseJsonMembers f (skipJsonWs r4) with
              | some (ms, r5) => some ((String.mk kchars, v) :: ms, r5)
              | none => none
            | c :: r4 =>
              if c = '\x7d' then some ([(String.mk kchars, v)], r4)
              else none
            | [] => none
        | _ => none
    | _ => none

end

/-- `json.loads(s)`: parse a complete JSON document, `none` on any error. -/
def jsonLoads (s : String) : Option JVal :=
  match parseJsonValue (2 * s.length + 2) (skipJsonWs s.data) with
  | some (v, rest) => if skipJsonWs rest = [] then some v else none
  | none => none

/-- UTF-8 encoding of one character (`str.encode("utf-8")`, per code point). -/
def utf8EncodeChar (c : Char) : List Nat :=
  let n := c.toNat
  if n < 0x80 then [n]
  else if n < 0x800 then [0xC0 + n / 64, 0x80 + n % 64]
  else if n < 0x10000 then
    [0xE0 + n / 4096, 0x80 + n / 64 % 64, 0x80 + n % 64]
  else
    [0xF0 + n / 262144, 0x80 + n / 4096 % 64, 0x80 + n / 64 % 64, 0x80 + n % 64]

/-- `s.encode("utf-8")` as a byte list. -/
def utf8Bytes (s : String) : List Nat :=
  (s.data.map utf8EncodeChar).flatten

/-- Is `b` a UTF-8 continuation byte?  Returns its payload. -/
def contByte (b : Nat) : Option Nat :=
  if 0x80 ≤ b ∧ b < 0xC0 then some (b % 64) else none

/-- Strict UTF-8 decoding (`bytes.decode("utf-8")`): rejects truncated
sequences, stray continuation bytes, overlong forms, surrogates and
out-of-range code points.  Fuel is the length of the byte list. -/
def utf8DecodeAux : Nat → List Nat → Option (List Char)
  | _, [] => some []
  | 0, _ :: _ => none
  | fuel + 1, b :: bs =>
    if b < 0x80 then do
      let cs ← utf8DecodeAux fuel bs
      pure (Char.ofNat b :: cs)
    else if 0xC2 ≤ b ∧ b ≤ 0xDF then
      match bs with
      | b2 :: bs2 => do
        let p2 ← contByte b2
        let cs ← utf8DecodeAux fuel bs2
        pure (Char.ofNat ((b - 0xC0) * 64 + p2) :: cs)
      | _ => none
    else if 0xE0 ≤ b ∧ b ≤ 0xEF then
      match bs with
      | b2 :: b3 :: bs3 => do
        let p2 ← contByte b2
        let p3 ← contByte b3
        let cp := (b - 0xE0) * 4096 + p2 * 64 + p3
        if 0x800 ≤ cp ∧ (cp < 0xD800 ∨ 0xE000 ≤ cp) then do
          let cs ← utf8DecodeAux fuel bs3
          pure (Char.ofNat cp :: cs)
        else none
      | _ => none
    else if 0xF0 ≤ b ∧ b ≤ 0xF4 then
      match bs with
      | b2 :: b3 :: b4 :: bs4 => do
        let p2 ← contByte b2
        let p3 ← contByte b3
        let p4 ← contByte b4
        let cp := (b - 0xF0) * 262144 + p2 * 4096 + p3 * 64 + p4
        if 0x10000 ≤ cp ∧ cp ≤ 0x10FFFF then do
          let cs ← utf8DecodeAux fuel bs4
          pure (Char.ofNat cp :: cs)
        else none
      | _ => none
    else none

/-- `raw.decode("utf-8")`; `none` models the raised `UnicodeDecodeError`. -/
def utf8Decode (raw : List Nat) : Option String :=
  (utf8DecodeAux raw.length raw).map String.mk

/-! ### SHA-256 (FIPS 180-4) and HMAC (RFC 2104), over byte lists

This models Python's `hashlib.sha256` / `hmac.new(..., hashlib.sha256)`.
All 32-bit words are `Nat`s reduced mod `2^32`. -/

/-- Reduce mod `2^32`. -/
def m32 (x : Nat) : Nat := x % 4294967296

/-- Right rotation of a 32-bit word. -/
def rotr32 (n x : Nat) : Nat := m32 ((x >>> n) ||| (x <<< (32 - n)))

/-- Bitwise complement of a 32-bit word. -/
def not32 (x : Nat) : Nat := x ^^^ 0xFFFFFFFF

/-- SHA-256 `Ch` function. -/
def shaCh (x y z : Nat) : Nat := (x &&& y) ^^^ (not32 x &&& z)

/-- SHA-256 `Maj` function. -/
def shaMaj (x y z : Nat) : Nat := (x &&& y) ^^^ (x &&& z) ^^^ (y &&& z)

/-- SHA-256 big sigma 0. -/
def bsig0 (x : Nat) : Nat := rotr32 2 x ^^^ rotr32 13 x ^^^ rotr32 22 x

/-- SHA-256 big sigma 1. -/
def bsig1 (x : Nat) : Nat := rotr32 6 x ^^^ rotr32 11 x ^^^ rotr32 25 x

/-- SHA-256 small sigma 0. -/
def ssig0 (x : Nat) : Nat := rotr32 7 x ^^^ rotr32 18 x ^^^ (x >>> 3)

/-- SHA-256 small sigma 1. -/
def ssig1 (x : Nat) : Nat := rotr32 17 x ^^^ rotr32 19 x ^^^ (x >>> 10)

/-- The 64 SHA-256 round constants (FIPS 180-4, in decimal). -/
def shaK : List Nat :=
  [1116352408, 1899447441, 3049323471, 3921009573, 961987163, 1508970993,
   2453635748, 2870763221, 3624381080, 310598401, 607225278, 1426881987,
   1925078388, 2162078206, 2614888103, 3248222580, 3835390401, 4022224774,
   264347078, 604807628, 770255983, 1249150122, 1555081692, 1996064986,
   2554220882, 2821834349, 2952996808, 3210313671, 3336571891, 3584528711,
   113926993, 338241895, 666307205, 773529912, 1294757372, 1396182291,
   1695183700, 1986661051, 2177026350, 2456956037, 2730485921, 2820302411,
   3259730800, 3345764771, 3516065817, 3600352804, 4094571909, 275423344,
   430227734, 506948616, 659060556, 883997877, 958139571, 1322822218,
   1537002063, 1747873779, 1955562222, 2024104815, 2227730452, 2361852424,
   2428436474, 2756734187, 3204031479, 3329325298]

/-- The SHA-256 working state (eight 32-bit words). -/
structure Sha8 where
  a : Nat
  b : Nat
  c : Nat
  d : Nat
  e : Nat
  f : Nat
  g : Nat
  h : Nat

/-- The SHA-256 initial hash value. -/
def shaH0 : Sha8 :=
  ⟨1779033703, 3144134277, 1013904242, 2773480762,
   1359893119, 2600822924, 528734635, 1541459225⟩

/-- Message padding: append `0x80`, zeros, and the 64-bit big-endian bit
length, up to a multiple of 64 bytes. -/
def shaPad (msg : List Nat) : List Nat :=
  let bits := msg.length * 8
  msg ++ 0x80 :: List.replicate ((119 - msg.length % 64) % 64) 0 ++
    [bits >>> 56 % 256, bits >>> 48 % 256, bits >>> 40 % 256, bits >>> 32 % 256,
     bits >>> 24 % 256, bits >>> 16 % 256, bits >>> 8 % 256, bits % 256]

/-- Big-endian 32-bit words from bytes. -/
def toWords : List Nat → List Nat
  | b0 :: b1 :: b2 :: b3 :: rest =>
    (b0 * 16777216 + b1 * 65536 + b2 * 256 + b3) :: toWords rest
  | _ => []

/-- The 64-entry message schedule from a 16-word block. -/
def shaSchedule (block : List Nat) : Array Nat :=
  (List.range 48).foldl
    (fun w _ =>
      let i := w.size
      w.push (m32 (ssig1 (w.getD (i - 2) 0) + w.getD (i - 7) 0 +
        ssig0 (w.getD (i - 15) 0) + w.getD (i - 16) 0)))
    block.toArray

/-- One SHA-256 round. -/
def shaRound (st : Sha8) (k w : Nat) : Sha8 :=
  let t1 := m32 (st.h + bsig1 st.e + shaCh st.e st.f st.g + k + w)
  let t2 := m32 (bsig0 st.a + shaMaj st.a st.b st.c)
  ⟨m32 (t1 + t2), st.a, st.b, st.c, m32 (st.d + t1), st.e, st.f, st.g⟩

/-- Compress one 16-word block into the state. -/
def shaCompress (st : Sha8) (block : List Nat) : Sha8 :=
  let w := shaSchedule block
  let fin := (List.range 64).foldl
    (fun s i => shaRound s (shaK.getD i 0) (w.getD i 0)) st
  ⟨m32 (st.a + fin.a), m32 (st.b + fin.b), m32 (st.c + fin.c), m32 (st.d + fin.d),
   m32 (st.e + fin.e), m32 (st.f + fin.f), m32 (st.g + fin.g), m32 (st.h + fin.h)⟩

/-- Fold the compression over successive 16-word blocks (fuel counts blocks). -/
def shaBlocks : Nat → Sha8 → List Nat → Sha8
  | 0, st, _ => st
  | _, st, [] => st
  | fuel + 1, st, ws => shaBlocks fuel (shaCompress st (ws.take 16)) (ws.drop 16)

/-- Big-endian bytes of a 32-bit word. -/
def wordBytes (w : Nat) : List Nat :=
  [w / 16777216 % 256, w / 65536 % 256, w / 256 % 256, w % 256]

/-- SHA-256 digest (32 bytes) of a byte list. -/
def sha256 (msg : List Nat) : List Nat :=
  let ws := toWords (shaPad msg)
  let st := shaBlocks (ws.length / 16) shaH0 ws
  wordBytes st.a ++ wordBytes st.b ++ wordBytes st.c ++ wordBytes st.d ++
    wordBytes st.e ++ wordBytes st.f ++ wordBytes st.g ++ wordBytes st.h

/-- Lower-case hex digit. -/
def hexChar (d : Nat) : Char :=
  Char.ofNat (if d < 10 then 48 + d else 87 + d)

/-- Lower-case hex string of a byte list (`hexdigest()`). -/
def bytesToHex (bs : List Nat) : String :=
  String.mk ((bs.map (fun b => [hexChar (b / 16), hexChar (b % 16)])).flatten)

/-- HMAC-SHA256 (RFC 2104) over byte lists; block size 64. -/
def hmacSha256 (key msg : List Nat) : List Nat :=
  let k0 := if 64 < key.length then sha256 key else key
  let k := k0 ++ List.replicate (64 - k0.length) 0
  sha256 (k.map (· ^^^ 0x5c) ++ sha256 (k.map (· ^^^ 0x36) ++ msg))

/-- `_hmac_sha256_hex(secret, data)` from `app.py`:
`hmac.new(secret.encode(), data.encode(), hashlib.sha256).hexdigest()`. -/
def hmac_sha256_hex (secret data : String) : String :=
  bytesToHex (hmacSha256 (utf8Bytes secret) (utf8Bytes data))

/-- `_safe_equal(a, b)` from `app.py`: `hmac.compare_digest` on the UTF-8
encodings decides exactly string equality (UTF-8 is injective); constant-time
behaviour is not modelled. -/
def safe_equal (a b : String) : Bool :=
  a == b

/-! ### The transfer-intent parser (`_parse_cn_transfer` and its regexes) -/

/-- Is `c` an ASCII hex digit (the class `[a-fA-F0-9]`)? -/
def isHexChar (c : Char) : Bool :=
  c.isDigit || ('a' ≤ c && c ≤ 'f') || ('A' ≤ c && c ≤ 'F')

/-- Exactly `n` hex digits from the front. -/
def takeHexChars : Nat → List Char → Option (List Char)
  | 0, _ => some []
  | _ + 1, [] => none
  | n + 1, c :: cs =>
    if isHexChar c then (takeHexChars n cs).map (c :: ·) else none

/-- Match `_ADDR_RE` = `(0x[a-fA-F0-9]{40})` at this position. -/
def matchAddrAt : List Char → Option (List Char)
  | '0' :: 'x' :: rest => (takeHexChars 40 rest).map (fun h => '0' :: 'x' :: h)
  | _ => none

/-- `_ADDR_RE.search`: leftmost match. -/
def searchAddr : List Char → Option String
  | [] => none
  | c :: cs =>
    match matchAddrAt (c :: cs) with
    | some m => some (String.mk m)
    | none => searchAddr cs

/-- Match `_AMOUNT_RE` = `([0-9]+(?:\.[0-9]+)?)` at this position: a maximal
digit run, optionally a dot and a second maximal digit run. -/
def matchAmountAt (cs : List Char) : Option (List Char) :=
  match cs with
  | c :: _ =>
    if c.isDigit then
      let (ds, r) := takeDigits cs
      match r with
      | '.' :: r2 =>
        match takeDigits r2 with
        | ([], _) => some ds
        | (fs, _) => some (ds ++ '.' :: fs)
      | _ => some ds
    else none
  | [] => none

/-- `_AMOUNT_RE.search`: leftmost match. -/
def searchAmount : List Char → Option String
  | [] => none
  | c :: cs =>
    match matchAmountAt (c :: cs) with
    | some m => some (String.mk m)
    | none => searchAmount cs

/-- Whitespace class `\s` of the regex module (ASCII part; the code's inputs
contain no exotic whitespace). -/
def skipReWs : List Char → List Char
  | c :: cs =>
    if c = ' ' ∨ c = '\t' ∨ c = '\n' ∨ c = '\r' ∨ c = '\x0b' ∨ c = '\x0c' then
      skipReWs cs
    else c :: cs
  | [] => []

/-- Tail of `_TIMES_RE` after the `转`/`转账` marker: `\s*([0-9]{1,4})\s*次`.
Backtracking collapses: the digit group matches only the full maximal run
(of length 1–4), since a leftover digit can never match `\s*次`. -/
def matchTimesTail (cs : List Char) : Option (List Char) :=
  match takeDigits (skipReWs cs) with
  | ([], _) => none
  | (ds, r) =>
    if ds.length ≤ 4 then
      match skipReWs r with
      | '次' :: _ => some ds
      | _ => none
    else none

/-- Match `_TIMES_RE` = `(?:转|转账)\s*([0-9]{1,4})\s*次` at this position
(the `转` alternative is tried first, then `转账`). -/
def matchTimesAt : List Char → Option (List Char)
  | '转' :: rest =>
    match matchTimesTail rest with
    | some ds => some ds
    | none =>
      match rest with
      | '账' :: r2 => matchTimesTail r2
      | _ => none
  | _ => none

/-- `_TIMES_RE.search`: leftmost match, returning the digit group. -/
def searchTimes : List Char → Option (List Char)
  | [] => none
  | c :: cs =>
    match matchTimesAt (c :: cs) with
    | some ds => some ds
    | none => searchTimes cs

/-- The executor's chain configuration (the module-level environment defaults
`DEFAULT_RPC_URL`, `DEFAULT_CHAIN_ID`, `DEFAULT_USDC_ADDRESS` of `app.py`). -/
structure ExecutorConfig where
  rpc_url : String
  chain_id : Int
  usdc_address : String

/-- The hard-coded defaults of `app.py` (no environment overrides). -/
def defaultConfig : ExecutorConfig :=
  ⟨"https://rpc.testnet.arc.network", 5042002, "0x3600000000000000000000000000000000000000"⟩

/-- The repeat count recognized in a (stripped) text: the `_TIMES_RE` group
through `max(1, int(...))`, defaulting to 1. -/
def timesOf (t : String) : Nat :=
  match searchTimes t.data with
  | some ds => max 1 (digitsToNat ds)
  | none => 1

/-- The `transfer_erc20` intent dict built by `_parse_cn_transfer`. -/
def erc20Intent (cfg : ExecutorConfig) (toAddr amount : String) (times : Nat) : JVal :=
  jobj
    [("type", jstr "transfer_erc20"),
     ("rpc_url", jstr cfg.rpc_url),
     ("expected_chain_id", jnum cfg.chain_id),
     ("token_address", jstr cfg.usdc_address),
     ("to", jstr toAddr),
     ("amount", jstr amount),
     ("decimals", jnum 6),
     ("times", jnum times)]

/-- The `transfer_native` intent dict built by `_parse_cn_transfer`. -/
def nativeIntent (cfg : ExecutorConfig) (toAddr amount : String) (times : Nat) : JVal :=
  jobj
    [("type", jstr "transfer_native"),
     ("rpc_url", jstr cfg.rpc_url),
     ("expected_chain_id", jnum cfg.chain_id),
     ("to", jstr toAddr),
     ("amount_eth", jstr amount),
     ("times", jnum times)]

/-- The clarification dict built by `_parse_cn_transfer` when no token keyword
is recognized. -/
def needsTokenIntent (toAddr amount : String) : JVal :=
  jobj [("_needs_token", jbool true), ("to", jstr toAddr), ("amount", jstr amount)]

/-- `_parse_cn_transfer(text)` from `app.py`: the small Chinese transfer-intent
parser.  Returns the intent dict (`transfer_erc20` / `transfer_native` /
`_needs_token`) or `none`. -/
def parse_cn_transfer (cfg : ExecutorConfig) (text : String) : Option JVal :=
  let t := pyStrip text
  if t = "" then none
  else
    match searchAddr t.data with
    | none => none
    | some toAddr =>
      let times : Nat := timesOf t
      match searchAmount t.data with
      | none => none
      | some amount =>
        let lower := pyLower t
        let is_usdc := strContains lower "usdc"
        let is_eth :=
          strContains lower "eth" || strContains t "原生" || strContains t "主币"
        if is_usdc then some (erc20Intent cfg toAddr amount times)
        else if is_eth then some (nativeIntent cfg toAddr amount times)
        else some (needsTokenIntent toAddr amount)

/-! ### The command extractor (`_extract_commands`) -/

/-- Is `c` an object with a string `type` field (the element filter of
`_extract_commands`)? -/
def isTypedCmd (c : JVal) : Bool :=
  match c with
  | jobj _ =>
    match pyGet c "type" with
    | some (jstr _) => true
    | _ => false
  | _ => false

/-- `v[0]` in Python: first element of a list, or a one-character string;
`none` models the raised `IndexError`/`KeyError`/`TypeError`. -/
def pyIndex0 : JVal → Option JVal
  | jarr (x :: _) => some x
  | jstr s =>
    match s.data with
    | c :: _ => some (jstr (String.mk [c]))
    | [] => none
  | _ => none

/-- `v.get(key, dflt)` where a non-dict receiver raises (`none`). -/
def pyGetAttrD (v : JVal) (key : String) (dflt : JVal) : Option JVal :=
  match v with
  | jobj _ => some (pyGetD v key dflt)
  | _ => none

/-- The guarded access
`openmind_response.get("choices", [{}])[0].get("message", {}).get("content", None)`
of `_extract_commands`; `none` models the `except`-caught exception (which the
code turns into `content = None`). -/
def choicesContent (v : JVal) : Option JVal := do
  let cs ← pyGetAttrD v "choices" (jarr [jobj []])
  let c0 ← pyIndex0 cs
  let m ← pyGetAttrD c0 "message" (jobj [])
  pyGetAttrD m "content" jnull

/-- The content when it is a string (the `isinstance(content, str)` check). -/
def contentStr (v : JVal) : Option String :=
  match choicesContent v with
  | some (jstr s) => some s
  | _ => none

/-- The content-parsing tail shared by `_extract_commands` and the
specification's shape 2: strip, parse as JSON, and filter — an array is
filtered element-wise, a single typed object becomes a one-element list, an
object with a `commands` array is filtered as shape 1, anything else (or a
parse failure, or blank content) yields no commands. -/
def filterParsedContent (content : String) : List JVal :=
  let s := pyStrip content
  if s = "" then []
  else
    match jsonLoads s with
    | none => []
    | some (jarr ps) => ps.filter isTypedCmd
    | some (jobj fs) =>
      if isTypedCmd (jobj fs) then [jobj fs]
      else
        match pyGet (jobj fs) "commands" with
        | some (jarr cs2) => cs2.filter isTypedCmd
        | _ => []
    | some _ => []

/-- `_extract_commands(openmind_response)` from `app.py`. -/
def extract_commands (v : JVal) : List JVal :=
  if jtruthy v = false then []
  else
    match v with
    | jobj _ =>
      match pyGet v "commands" with
      | some (jarr cs) => cs.filter isTypedCmd
      | _ =>
        match contentStr v with
        | some content => filterParsedContent content
        | none => []
    | _ => []

/-! ### The chain client (`chain_client.chain_execute`) and batch execution -/

/-- An HTTP response from the chain service (status code and body text). -/
structure HttpResp where
  status : Nat
  body : String
deriving DecidableEq

/-- The external chain-execution backend: for each successive call (indexed by
a call counter) and forwarded payload, either an HTTP response or `Except.error`
for a network error raised by `httpx` (which nothing in the executor catches). -/
abbrev Backend := Nat → JVal → Except Unit HttpResp

/-- The result dict built by `chain_execute` from a response:
`{"status": r.status_code, "data": r.json() or {"raw": r.text}}`. -/
def chain_result_of (r : HttpResp) : JVal :=
  jobj [("status", jnum r.status),
        ("data", match jsonLoads r.body with
                 | some d => d
                 | none => jobj [("raw", jstr r.body)])]

/-- `chain_client.chain_execute(payload)`: one POST to the chain service.
A network error propagates (`Except.error "network"`). -/
def chain_execute (backend : Backend) (n : Nat) (payload : JVal) : Except String JVal :=
  match backend n payload with
  | Except.error _ => Except.error "network"
  | Except.ok r => Except.ok (chain_result_of r)

/-- `times = int(payload.get("times") or 1)` from `_execute_chain_command`
(and the websocket confirm branch); `none` models the raised
`TypeError`/`ValueError` when the (truthy) field is not `int()`-convertible. -/
def pyTimes (payload : JVal) : Option Int :=
  let v := pyGetD payload "times" jnull
  pyInt (if jtruthy v then v else jnum 1)

/-- `max(1, min(times, 50))`, as a `Nat`. -/
def clampTimes (t : Int) : Nat := (max 1 (min t 50)).toNat

/-- The sequential loop of `_execute_chain_command`: `count` remaining calls,
call counter `n`, 1-based result index `i`; each result is wrapped as
`{"index": i, "total": total, "result": r}`.  The first network error
propagates and discards everything. -/
def runBatch (backend : Backend) (base : JVal) (total : Nat) :
    Nat → Nat → Nat → Except String (List JVal)
  | 0, _, _ => Except.ok []
  | count + 1, n, i =>
    match chain_execute backend n base with
    | Except.error e => Except.error e
    | Except.ok r =>
      match runBatch backend base total count (n + 1) (i + 1) with
      | Except.error e => Except.error e
      | Except.ok rest =>
        Except.ok (jobj [("index", jnum i), ("total", jnum total), ("result", r)] :: rest)

/-- `_execute_chain_command(value)` from `app.py`: decode a string value as
JSON, require a dict, read and clamp `times`, strip it, and run the batch
sequentially.  Returns the reply dict and the advanced call counter;
`Except.error` models an uncaught exception (bad `times`, network error). -/
def execute_chain_command (backend : Backend) (n : Nat) (value : JVal) :
    Except String (JVal × Nat) :=
  let payloadE : Except JVal JVal :=
    match value with
    | jstr s =>
      match jsonLoads s with
      | some p => Except.ok p
      | none =>
        Except.error (jobj [("ok", jbool false),
          ("error", jstr "chain_execute value must be JSON object or JSON string")])
    | v => Except.ok v
  match payloadE with
  | Except.error e => Except.ok (e, n)
  | Except.ok p =>
    match p with
    | jobj _ =>
      match pyTimes p with
      | none => Except.error "int"
      | some t =>
        let times := clampTimes t
        let base :=
          match p with
          | jobj fs => jobj (eraseKey fs "times")
          | _ => p
        match runBatch backend base times times n 1 with
        | Except.error e => Except.error e
        | Except.ok results =>
          Except.ok (jobj [("ok", jbool true), ("times", jnum times),
            ("results", jarr results)], n + times)
    | _ =>
      Except.ok (jobj [("ok", jbool false),
        ("error", jstr "chain_execute payload must be an object")], n)

/-! ### The authenticated webhook (`POST /execute`) -/

/-- An `HTTPException` raised by the endpoint. -/
inductive HttpError where
  | serverError (detail : String)
  | unauthorized (detail : String)
  | badRequest (detail : String)
deriving DecidableEq

/-- The authentication prefix of `execute` (`app.py` lines 204–220): secret
configured, both headers present and nonempty (Python truthiness), body
UTF-8-decodable, signature equal to
`HMAC_SHA256_HEX(secret, f"{timestamp}.{payload_str}")`.  On success returns
the decoded body string. -/
def executeAuth (secret : String) (ts sig : Option String) (raw : List Nat) :
    Except HttpError String :=
  if secret = "" then
    Except.error (HttpError.serverError "EXECUTOR_SHARED_SECRET is not set on executor.")
  else
    match ts, sig with
    | some tsv, some sigv =>
      if tsv = "" ∨ sigv = "" then
        Except.error (HttpError.unauthorized "Missing signature headers.")
      else
        match utf8Decode raw with
        | none => Except.error (HttpError.badRequest "Body must be UTF-8 JSON.")
        | some payload_str =>
          let expected := hmac_sha256_hex secret (tsv ++ "." ++ payload_str)
          if safe_equal expected sigv then Except.ok payload_str
          else Except.error (HttpError.unauthorized "Invalid signature.")
    | _, _ => Except.error (HttpError.unauthorized "Missing signature headers.")

/-- `c.get("value", c.get("payload"))`: the value key wins whenever it is
present — even when it holds `null` — and only an absent value key falls back
to `payload` (Python's `dict.get` default is used only for a missing key). -/
def cmdValue (c : JVal) : JVal :=
  match pyGet c "value" with
  | some v => v
  | none => pyGetD c "payload" jnull

/-- Does the command pass the type filter
`ctype in ("chain_execute", "wallet_send", "wallet_sign")`? -/
def isChainType (c : JVal) : Bool :=
  match pyGet c "type" with
  | some (jstr ty) => ty = "chain_execute" ∨ ty = "wallet_send" ∨ ty = "wallet_sign"
  | _ => false

/-- The command loop of `execute` (`app.py` lines 233–247): for each extracted
command of a chain type, execute it and append
`{"type": "chain_execute", "input": cvalue, "output": ...}` to `executed`.
Threads the backend call counter; an uncaught exception propagates. -/
def executeCommands (backend : Backend) :
    Nat → List JVal → Except String (List JVal × Nat)
  | n, [] => Except.ok ([], n)
  | n, c :: rest =>
    match c with
    | jobj _ =>
      if isChainType c then
        match execute_chain_command backend n (cmdValue c) with
        | Except.error e => Except.error e
        | Except.ok (out, n') =>
          match executeCommands backend n' rest with
          | Except.error e => Except.error e
          | Except.ok (entries, n'') =>
            Except.ok (jobj [("type", jstr "chain_execute"), ("input", cmdValue c),
              ("output", out)] :: entries, n'')
      else executeCommands backend n rest
    | _ => Except.error "AttributeError"

/-- The outcome of a request to `POST /execute`. -/
inductive ExecOutcome where
  | rejected (e : HttpError)
  | raised (msg : String)
  | ok (response : JVal)

/-- The response dict of `execute`. -/
def executeResponse (status resp : JVal) (executed : List JVal) : JVal :=
  jobj [("accepted", jbool true),
        ("openmind_status", status),
        ("note", jstr "MVP executor: not executing hardware actions yet (only returns payload)."),
        ("openmind_response_preview", resp),
        ("executed", jarr executed)]

/-- `execute` (`POST /execute`, `app.py` lines 189–255): authenticate, parse
the body, and — when `EXECUTOR_ENABLE_CHAIN_FROM_GATEWAY` is enabled — extract
and run chain commands. -/
def executeEndpoint (secret : String) (enableChain : Bool) (backend : Backend)
    (ts sig : Option String) (raw : List Nat) : ExecOutcome :=
  match executeAuth secret ts sig raw with
  | Except.error e => ExecOutcome.rejected e
  | Except.ok payload_str =>
    match jsonLoads payload_str with
    | none => ExecOutcome.rejected (HttpError.badRequest "Invalid JSON body.")
    | some payload =>
      match payload with
      | jobj _ =>
        let status := pyGetD payload "openmind_status" jnull
        let resp := pyGetD payload "openmind_response" jnull
        if enableChain then
          match executeCommands backend 0 (extract_commands resp) with
          | Except.error e => ExecOutcome.raised e
          | Except.ok (executed, _) => ExecOutcome.ok (executeResponse status resp executed)
        else ExecOutcome.ok (executeResponse status resp [])
      | _ => ExecOutcome.raised "AttributeError"

/-! ### The websocket conversation session (`ws_conversation`) -/

/-- An opening brace as a string (kept out of string literals). -/
def lbrace : String := String.mk [Char.ofNat 123]

/-- A closing brace as a string. -/
def rbrace : String := String.mk [Char.ofNat 125]

/-- Four lower-case hex digits of a 16-bit value (for `\uXXXX` escapes). -/
def uHex4 (v : Nat) : List Char :=
  [hexChar (v / 4096 % 16), hexChar (v / 256 % 16), hexChar (v / 16 % 16), hexChar (v % 16)]

/-- One character escaped as `json.dumps` (default `ensure_ascii=True`) does. -/
def jsonEscapeChar (c : Char) : List Char :=
  if c = '"' then ['\\', '"']
  else if c = '\\' then ['\\', '\\']
  else if c = '\n' then ['\\', 'n']
  else if c = '\r' then ['\\', 'r']
  else if c = '\t' then ['\\', 't']
  else if c.toNat = 8 then ['\\', 'b']
  else if c.toNat = 12 then ['\\', 'f']
  else if c.toNat < 0x20 ∨ 0x7F ≤ c.toNat then
    if c.toNat < 0x10000 then '\\' :: 'u' :: uHex4 c.toNat
    else
      let v := c.toNat - 0x10000
      ('\\' :: 'u' :: uHex4 (0xD800 + v / 1024)) ++ ('\\' :: 'u' :: uHex4 (0xDC00 + v % 1024))
  else [c]

/-- A quoted JSON string literal, as `json.dumps` renders it. -/
def jsonQuote (s : String) : String :=
  "\"" ++ String.mk ((s.data.map jsonEscapeChar).flatten) ++ "\""

mutual

/-- `json.dumps(v)` with the default separators and `ensure_ascii=True`
(used only for the chat branch's fallback spoken text). -/
def jsonDumps : JVal → String
  | jnull => "null"
  | jbool true => "true"
  | jbool false => "false"
  | jnum k => toString k
  | jstr s => jsonQuote s
  | jarr items => "[" ++ jsonDumpsItems items ++ "]"
  | jobj fields => lbrace ++ jsonDumpsFields fields ++ rbrace

/-- Comma-separated rendering of array items. -/
def jsonDumpsItems : List JVal → String
  | [] => ""
  | [v] => jsonDumps v
  | v :: vs => jsonDumps v ++ ", " ++ jsonDumpsItems vs

/-- Comma-separated rendering of object members. -/
def jsonDumpsFields : List (String × JVal) → String
  | [] => ""
  | [(k, v)] => jsonQuote k ++ ": " ++ jsonDumps v
  | (k, v) :: fs => jsonQuote k ++ ": " ++ jsonDumps v ++ ", " ++ jsonDumpsFields fs

end

mutual

/-- `repr(v)` of a `json.loads` image (string escaping inside `repr` is not
modelled; only f-string interpolation of parser outputs ever reaches it). -/
def pyRepr : JVal → String
  | jnull => "None"
  | jbool true => "True"
  | jbool false => "False"
  | jnum k => toString k
  | jstr s => "'" ++ s ++ "'"
  | jarr items => "[" ++ pyReprItems items ++ "]"
  | jobj fields => lbrace ++ pyReprFields fields ++ rbrace

/-- Comma-separated `repr` of list items. -/
def pyReprItems : List JVal → String
  | [] => ""
  | [v] => pyRepr v
  | v :: vs => pyRepr v ++ ", " ++ pyReprItems vs

/-- Comma-separated `repr` of dict members. -/
def pyReprFields : List (String × JVal) → String
  | [] => ""
  | [(k, v)] => "'" ++ k ++ "': " ++ pyRepr v
  | (k, v) :: fs => "'" ++ k ++ "': " ++ pyRepr v ++ ", " ++ pyReprFields fs

end

/-- `str(v)` on a `json.loads` image. -/
def pyStr : JVal → String
  | jstr s => s
  | v => pyRepr v

/-- `v[key]` in Python (`none` models the raised `KeyError`/`TypeError`). -/
def pyIndexKey (v : JVal) (key : String) : Option JVal :=
  match v with
  | jobj _ => pyGet v key
  | _ => none

/-- The guarded `result["data"]["choices"][0]["message"]["content"]` of the
chat branch; `none` models the `except`-caught exception. -/
def extractAssistant (adata : JVal) : Option JVal := do
  let choices ← pyIndexKey adata "choices"
  let c0 ← pyIndex0 choices
  let m ← pyIndexKey c0 "message"
  pyIndexKey m "content"

/-- The cancel keywords of the session (`app.py` line 394). -/
def cancelKeywords : List String := ["取消", "算了", "不转了", "撤销"]

/-- The confirm keywords of the session (`app.py` line 399). -/
def confirmKeywords : List String := ["确认", "确定", "是", "yes", "y"]

/-- The outcome of handling one websocket message: the new pending payload,
the JSON events sent (`ws.send_json` arguments, in order), the payloads of
the chain-service calls made (in order), the advanced backend call counter,
and whether an uncaught exception tore the connection down. -/
structure WsOut where
  pending : Option JVal
  events : List JVal
  calls : List JVal
  next : Nat
  raised : Bool

/-- The `hello` event sent on connect (`app.py` lines 303–311). -/
def wsHello (apiKey : Option String) : JVal :=
  jobj [("type", jstr "hello"),
        ("message", jstr ("已连接。你可以直接中文对话，或发送 JSON 指令。\n例：转 1 USDC 到 0x...\n或：" ++
          lbrace ++ "\"type\":\"chat\",\"text\":\"...\"" ++ rbrace ++ " / " ++
          lbrace ++ "\"type\":\"chain_execute\",\"payload\":" ++ lbrace ++ "..." ++ rbrace ++ rbrace)),
        ("chat_enabled", jbool apiKey.isSome)]

/-- The confirm-branch batch loop (`app.py` lines 414–419): per item a
`progress` event, one sequential backend call, and a `chain_result` event.
A network error keeps the events already sent and raises. -/
def wsBatch (backend : Backend) (base : JVal) (total : Nat) :
    Nat → Nat → Nat → List JVal × List JVal × List JVal × Nat × Bool
  | 0, n, _ => ([], [], [], n, false)
  | count + 1, n, i =>
    let pev := jobj [("type", jstr "progress"), ("index", jnum i), ("total", jnum total)]
    match chain_execute backend n base with
    | Except.error _ => ([pev], [base], [], n + 1, true)
    | Except.ok r =>
      let rev := jobj [("type", jstr "chain_result"), ("index", jnum i),
        ("total", jnum total), ("result", r)]
      match wsBatch backend base total count (n + 1) (i + 1) with
      | (evs, cls, res, n', raised) =>
        (pev :: rev :: evs, base :: cls, r :: res, n', raised)

/-- The confirm branch (`app.py` lines 399–423), entered with the held pending
payload `p`: read and clamp `times`, send `info`, strip `times`, run the batch
sequentially, then clear the pending payload and send `done`. -/
def wsConfirmExec (backend : Backend) (n : Nat) (p : JVal) : WsOut :=
  match p with
  | jobj fs =>
    match pyTimes p with
    | none => ⟨some p, [], [], n, true⟩
    | some t =>
      let times := clampTimes t
      let infoEv := jobj [("type", jstr "info"),
        ("message", jstr ("已确认，准备提交 " ++ toString times ++ " 笔交易…")),
        ("times", jnum times)]
      let base := jobj (eraseKey fs "times")
      match wsBatch backend base times times n 1 with
      | (evs, cls, res, n', raised) =>
        if raised then ⟨some p, infoEv :: evs, cls, n', true⟩
        else
          ⟨none,
           infoEv :: evs ++ [jobj [("type", jstr "done"), ("count", jnum times),
             ("results_count", jnum res.length)]],
           cls, n', false⟩
  | _ => ⟨some p, [], [], n, true⟩

/-- The intent-parsing tail of the text path (`app.py` lines 425–461):
clarification request, new pending intent with a confirm prompt, or speak. -/
def wsParseBranch (cfg : ExecutorConfig) (n : Nat) (pending : Option JVal)
    (text : String) : WsOut :=
  match parse_cn_transfer cfg text with
  | some parsed =>
    let tyS : Option String :=
      match pyGet parsed "type" with
      | some (jstr ty) => some ty
      | _ => none
    if jtruthy parsed ∧ jtruthy (pyGetD parsed "_needs_token" jnull) then
      ⟨pending,
       [jobj [("type", jstr "need_more"),
         ("message", jstr "我识别到了金额和收款地址，但没看到币种。请说：转 X USDC 到 0x... 或 转 X ETH 到 0x..."),
         ("to", pyGetD parsed "to" jnull),
         ("amount", pyGetD parsed "amount" jnull)]],
       [], n, false⟩
    else if jtruthy parsed ∧ (tyS = some "transfer_erc20" ∨ tyS = some "transfer_native") then
      match pyTimes parsed with
      | none => ⟨some parsed, [], [], n, true⟩
      | some t =>
        if tyS = some "transfer_erc20" then
          match pyGet parsed "to", pyGet parsed "amount" with
          | some toV, some amtV =>
            ⟨some parsed,
             [jobj [("type", jstr "confirm"),
               ("message", jstr ("确认转账：向 " ++ pyStr toV ++ " 转 " ++ pyStr amtV ++
                 " USDC（测试网），共 " ++ toString t ++ " 次。回复“确认”执行，回复“取消”放弃。")),
               ("payload", parsed)]],
             [], n, false⟩
          | _, _ => ⟨some parsed, [], [], n, true⟩
        else
          match pyGet parsed "to", pyGet parsed "amount_eth" with
          | some toV, some amtV =>
            ⟨some parsed,
             [jobj [("type", jstr "confirm"),
               ("message", jstr ("确认转账：向 " ++ pyStr toV ++ " 转 " ++ pyStr amtV ++
                 " ETH（测试网），共 " ++ toString t ++ " 次。回复“确认”执行，回复“取消”放弃。")),
               ("payload", parsed)]],
             [], n, false⟩
          | _, _ => ⟨some parsed, [], [], n, true⟩
    else ⟨pending, [jobj [("type", jstr "spoken"), ("text", jstr text)]], [], n, false⟩
  | none => ⟨pending, [jobj [("type", jstr "spoken"), ("text", jstr text)]], [], n, false⟩

/-- The plain-text path of the message loop (`app.py` lines 388–461):
empty text, cancel keywords, confirm keywords with a truthy pending payload,
then the parse branch. -/
def wsHandleText (cfg : ExecutorConfig) (backend : Backend) (n : Nat)
    (pending : Option JVal) (text : String) : WsOut :=
  if text = "" then ⟨pending, [], [], n, false⟩
  else if text ∈ cancelKeywords then
    ⟨none, [jobj [("type", jstr "cancelled"), ("message", jstr "已取消。")]], [], n, false⟩
  else
    match pending with
    | some p =>
      if text ∈ confirmKeywords ∧ jtruthy p then wsConfirmExec backend n p
      else wsParseBranch cfg n (some p) text
    | none => wsParseBranch cfg n none text

/-- The chat branch (`app.py` lines 347–386). -/
def wsChatBranch (apiKey : Option String) (chat : Except Unit HttpResp) (n : Nat)
    (pending : Option JVal) (o : JVal) : WsOut :=
  let textV := pyGetD o "text" jnull
  let text := pyStrip (if jtruthy textV then pyStr textV else "")
  if text = "" then
    ⟨pending, [jobj [("type", jstr "error"), ("error", jstr "Missing text")]], [], n, false⟩
  else
    match apiKey with
    | none =>
      ⟨pending,
       [jobj [("type", jstr "error"),
         ("error", jstr "Chat disabled: set OM_API_KEY on the executor machine.")]],
       [], n, false⟩
    | some _ =>
      match chat with
      | Except.error _ => ⟨pending, [], [], n, true⟩
      | Except.ok r =>
        let result := chain_result_of r
        let ev1 := jobj [("type", jstr "openmind_result"), ("result", result)]
        let adata := pyGetD result "data" jnull
        let assistant :=
          match extractAssistant adata with
          | some v => v
          | none => jstr (jsonDumps adata)
        if jtruthy assistant then
          ⟨pending, [ev1, jobj [("type", jstr "spoken"), ("text", assistant)]], [], n, false⟩
        else ⟨pending, [ev1], [], n, false⟩

/-- One iteration of the `ws_conversation` message loop (`app.py` lines
312–461), handling one received message.  `tests` stands for the
`TEST_SENTENCES` list imported from the repository's `test_sentences` module
(not under `src/`); its contents never influence the branches proved about. -/
def wsStep (cfg : ExecutorConfig) (apiKey : Option String) (tests : List String)
    (backend : Backend) (chat : Except Unit HttpResp) (n : Nat)
    (pending : Option JVal) (msg : String) : WsOut :=
  match jsonLoads msg with
  | some o =>
    if jtruthy o then
      match o with
      | jobj _ =>
        match pyGetD o "type" jnull with
        | jstr ty =>
          if ty = "tests" then
            ⟨pending, [jobj [("type", jstr "tests"), ("sentences", jarr (tests.map jstr))]],
             [], n, false⟩
          else if ty = "run_tests" then
            ⟨pending,
             (tests.map (fun s => jobj [("type", jstr "spoken"), ("text", jstr s)])) ++
               [jobj [("type", jstr "done")]],
             [], n, false⟩
          else if ty = "chain_execute" then
            let payload := pyGetD o "payload" jnull
            match payload with
            | jobj _ =>
              match chain_execute backend n payload with
              | Except.error _ => ⟨pending, [], [payload], n + 1, true⟩
              | Except.ok r =>
                ⟨pending, [jobj [("type", jstr "chain_result"), ("result", r)]],
                 [payload], n + 1, false⟩
            | _ =>
              ⟨pending,
               [jobj [("type", jstr "error"),
                 ("error", jstr ("Missing payload (object). Use " ++ lbrace ++
                   "\"type\":\"chain_execute\",\"payload\":" ++ lbrace ++ "..." ++
                   rbrace ++ rbrace))]],
               [], n, false⟩
          else if ty = "chat" then wsChatBranch apiKey chat n pending o
          else wsHandleText cfg backend n pending (pyStrip msg)
        | _ => wsHandleText cfg backend n pending (pyStrip msg)
      | _ => wsHandleText cfg backend n pending (pyStrip msg)
    else wsHandleText cfg backend n pending (pyStrip msg)
  | none => wsHandleText cfg backend n pending (pyStrip msg)

/-! ### The extraction contract as the specification words it (for C4) -/

/-- The OpenAI-style content accessor as the specification describes shape 2:
`choices[0].message.content` exists structurally and is a string. -/
def claimContent (v : JVal) : Option String :=
  match pyGet v "choices" with
  | some (jarr (c0 :: _)) =>
    match pyGet c0 "message" with
    | some (jobj mfs) =>
      match pyGet (jobj mfs) "content" with
      | some (jstr s) => some s
      | _ => none
    | _ => none
  | _ => none

/-- Command extraction as the claim/spec words it (spec §4.2): three shapes
tried in order — a top-level `commands` array filtered to objects with a
string `type`; an OpenAI-style content string parsed as JSON and filtered the
same way (a single typed object becomes a one-element list, an object with a
`commands` array is filtered as shape 1); otherwise the empty list. -/
def extractCommandsClaim (v : JVal) : List JVal :=
  match v with
  | jobj _ =>
    match pyGet v "commands" with
    | some (jarr cs) => cs.filter isTypedCmd
    | _ =>
      match claimContent v with
      | some content => filterParsedContent content
      | none => []
  | _ => []

/-! ## Helper lemmas -/

/-- `dropWs` only removes characters. -/
theorem mem_dropWs {c : Char} : ∀ {l : List Char}, c ∈ dropWs l → c ∈ l := by
  intro l
  induction l with
  | nil => simp [dropWs]
  | cons a t ih =>
    intro h
    rw [dropWs] at h
    split at h
    · exact List.mem_cons_of_mem a (ih h)
    · exact h

/-- Stripping only removes characters. -/
theorem mem_pyStrip {c : Char} {s : String} (h : c ∈ (pyStrip s).data) : c ∈ s.data := by
  have h1 : c ∈ (dropWs s.data.reverse).reverse := mem_dropWs h
  have h2 : c ∈ dropWs s.data.reverse := List.mem_reverse.mp h1
  exact List.mem_reverse.mp (mem_dropWs h2)

/-- An address match starts with the digit `0`, so a digit-free text has no
address match at any position. -/
theorem matchAddrAt_eq_none {c : Char} {cs : List Char} (hc : c.isDigit = false) :
    matchAddrAt (c :: cs) = none := by
  unfold matchAddrAt
  split
  · next heq =>
    injection heq with h1 _
    rw [h1] at hc
    exact absurd hc (by decide)
  · rfl

/-- `_ADDR_RE.search` finds nothing in a digit-free text. -/
theorem searchAddr_eq_none : ∀ {cs : List Char}, (∀ c ∈ cs, c.isDigit = false) →
    searchAddr cs = none := by
  intro cs
  induction cs with
  | nil => intro _; rfl
  | cons c t ih =>
    intro h
    rw [searchAddr, matchAddrAt_eq_none (h c (List.mem_cons_self c t))]
    exact ih fun x hx => h x (List.mem_cons_of_mem c hx)

/-- Claim C6: for every input text, the transfer-intent parser returns null
when the text contains no decimal numeral amount substring — an amount is
required, and its absence yields null rather than an intent or a
clarification request.  (When the text is digit-free the address regex, whose
matches start with the digit `0`, cannot match either, so the parser bails
out; the guarded amount check is what makes the absence of a numeral
unrecoverable even in principle.) -/
theorem C6_amount_required (cfg : ExecutorConfig) (text : String)
    (h : ∀ c ∈ text.data, c.isDigit = false) :
    parse_cn_transfer cfg text = none := by
  unfold parse_cn_transfer
  have hs : searchAddr (pyStrip text).data = none :=
    searchAddr_eq_none fun c hc => h c (mem_pyStrip hc)
  by_cases he : pyStrip text = "" <;> simp [he, hs]

/-- Witness for C6 at a concrete digit-free text. -/
theorem C6_amount_required_witness :
    (∀ c ∈ ("转 usdc 到 qq" : String).data, c.isDigit = false) ∧
      parse_cn_transfer defaultConfig "转 usdc 到 qq" = none :=
  ⟨by decide, C6_amount_required defaultConfig "转 usdc 到 qq" (by decide)⟩


/-- Claim C7, counterexample: on a text containing an address, an amount, and
BOTH a "usdc" and an "eth" keyword, the parser returns the ERC-20 intent, not
the native-transfer intent the claim's eth-clause demands. -/
theorem C7_claim_counterexample :
    strContains (pyLower (pyStrip "转 1 usdc eth 到 0x1111111111111111111111111111111111111111"))
      "eth" = true ∧
    parse_cn_transfer defaultConfig "转 1 usdc eth 到 0x1111111111111111111111111111111111111111" =
      some (erc20Intent defaultConfig "0x1111111111111111111111111111111111111111" "1" 1) ∧
    pyGet (erc20Intent defaultConfig "0x1111111111111111111111111111111111111111" "1" 1) "type" =
      some (jstr "transfer_erc20") ∧
    "transfer_erc20" ≠ "transfer_native" :=
  ⟨by decide, rfl, rfl, by decide⟩

/-- Claim C7 (amended): for every input text in which the parser finds an
address and an amount — a case-insensitive "usdc" substring yields the ERC-20
intent with fixed decimals 6 and the configured default token address, chain
id and RPC endpoint; in the absence of "usdc", an "eth" or native-currency
marker yields a native-transfer intent; absence of both yields a
needs-clarification result preserving the recognized address and amount and
committing to no token. -/
theorem C7_token_classifier (cfg : ExecutorConfig) (text toAddr amount : String)
    (haddr : searchAddr (pyStrip text).data = some toAddr)
    (hamt : searchAmount (pyStrip text).data = some amount) :
    (strContains (pyLower (pyStrip text)) "usdc" = true →
      parse_cn_transfer cfg text =
        some (erc20Intent cfg toAddr amount (timesOf (pyStrip text)))) ∧
    (strContains (pyLower (pyStrip text)) "usdc" = false →
      (strContains (pyLower (pyStrip text)) "eth" || strContains (pyStrip text) "原生" ||
        strContains (pyStrip text) "主币") = true →
      parse_cn_transfer cfg text =
        some (nativeIntent cfg toAddr amount (timesOf (pyStrip text)))) ∧
    (strContains (pyLower (pyStrip text)) "usdc" = false →
      (strContains (pyLower (pyStrip text)) "eth" || strContains (pyStrip text) "原生" ||
        strContains (pyStrip text) "主币") = false →
      parse_cn_transfer cfg text = some (needsTokenIntent toAddr amount)) := by
  have hne : pyStrip text ≠ "" := by
    intro h
    rw [h] at haddr
    simp [searchAddr] at haddr
  refine ⟨fun hu => ?_, fun hu he => ?_, fun hu he => ?_⟩
  · simp [parse_cn_transfer, hne, haddr, hamt, hu, timesOf]
  · simp [parse_cn_transfer, hne, haddr, hamt, hu, he, timesOf]
  · simp [parse_cn_transfer, hne, haddr, hamt, hu, he, timesOf]

/-- Witness for C7 at the spec's own example (no token keyword): amount `0.5`,
the given address, clarification requested. -/
theorem C7_token_classifier_witness :
    parse_cn_transfer defaultConfig "转 0.5 给 0x1111111111111111111111111111111111111111" =
      some (needsTokenIntent "0x1111111111111111111111111111111111111111" "0.5") :=
  (C7_token_classifier defaultConfig "转 0.5 给 0x1111111111111111111111111111111111111111"
    "0x1111111111111111111111111111111111111111" "0.5" (by decide) (by decide)).2.2
    (by decide) (by decide)

/-- Claim C9: "usdc" takes precedence — with an address and an amount present,
a case-insensitive "usdc" substring always yields the ERC-20 intent, and the
native-transfer branch is reachable only when "usdc" is absent from the
lowercased text. -/
theorem C9_usdc_precedence :
    (∀ (cfg : ExecutorConfig) (text toAddr amount : String),
      searchAddr (pyStrip text).data = some toAddr →
      searchAmount (pyStrip text).data = some amount →
      strContains (pyLower (pyStrip text)) "usdc" = true →
      parse_cn_transfer cfg text =
        some (erc20Intent cfg toAddr amount (timesOf (pyStrip text)))) ∧
    (∀ (cfg : ExecutorConfig) (text : String) (r : JVal),
      parse_cn_transfer cfg text = some r →
      pyGet r "type" = some (jstr "transfer_native") →
      strContains (pyLower (pyStrip text)) "usdc" = false) := by
  constructor
  · intro cfg text toAddr amount haddr hamt hu
    have hne : pyStrip text ≠ "" := by
      intro h
      rw [h] at haddr
      simp [searchAddr] at haddr
    simp [parse_cn_transfer, hne, haddr, hamt, hu, timesOf]
  · intro cfg text r hp ht
    cases hu : strContains (pyLower (pyStrip text)) "usdc"
    · rfl
    · exfalso
      have hne : pyStrip text ≠ "" := by
        intro h
        simp [parse_cn_transfer, h] at hp
      cases haddr : searchAddr (pyStrip text).data with
      | none => simp [parse_cn_transfer, hne, haddr] at hp
      | some a =>
        cases hamt : searchAmount (pyStrip text).data with
        | none => simp [parse_cn_transfer, hne, haddr, hamt] at hp
        | some m =>
          simp [parse_cn_transfer, hne, haddr, hamt, hu] at hp
          rw [← hp] at ht
          simp [erc20Intent, pyGet, lookupLast] at ht

/-- Witness for C9 on a text containing both "usdc" and "eth": the result is
the ERC-20 intent. -/
theorem C9_usdc_precedence_witness :
    parse_cn_transfer defaultConfig "转 2 ETH usdc 到 0x2222222222222222222222222222222222222222" =
      some (erc20Intent defaultConfig "0x2222222222222222222222222222222222222222" "2" 1) :=
  C9_usdc_precedence.1 defaultConfig "转 2 ETH usdc 到 0x2222222222222222222222222222222222222222"
    "0x2222222222222222222222222222222222222222" "2" (by decide) (by decide) (by decide)

/-- Characterization of the sequential batch loop when every backend call in
range returns an HTTP response: all results are collected in order, each
wrapped with its 1-based index and the batch total, and the backend is
consulted at consecutive call indices. -/
theorem runBatch_ok (backend : Backend) (base : JVal) (total : Nat) :
    ∀ (count n i : Nat) (resp : Nat → HttpResp),
      (∀ j, j < count → backend (n + j) base = Except.ok (resp j)) →
      runBatch backend base total count n i =
        Except.ok ((List.range count).map fun j : Nat =>
          jobj [("index", jnum ((i + j : Nat) : Int)), ("total", jnum total),
                ("result", chain_result_of (resp j))]) := by
  intro count
  induction count with
  | zero => intro n i resp _; simp [runBatch]
  | succ k ih =>
    intro n i resp h
    have h0 : backend n base = Except.ok (resp 0) := by
      have := h 0 (Nat.succ_pos k)
      simpa using this
    have hrec := ih (n + 1) (i + 1) (fun j => resp (j + 1)) (fun j hj => by
      have := h (j + 1) (by omega)
      rw [show n + (j + 1) = n + 1 + j from by omega] at this
      exact this)
    rw [runBatch]
    simp only [chain_execute, h0, hrec]
    rw [List.range_succ_eq_map, List.map_cons, List.map_map]
    have hidx : ∀ j : Nat, i + 1 + j = i + (j + 1) := fun j => by omega
    simp [Function.comp, hidx]

/-- Characterization of the websocket confirm-batch loop when every backend
call in range returns an HTTP response: a `progress` and a `chain_result`
event per item in order, one sequential call per item with the same base
payload, and no exception. -/
theorem wsBatch_ok (backend : Backend) (base : JVal) (total : Nat) :
    ∀ (count n i : Nat) (resp : Nat → HttpResp),
      (∀ j, j < count → backend (n + j) base = Except.ok (resp j)) →
      wsBatch backend base total count n i =
        (((List.range count).map fun j : Nat =>
            [jobj [("type", jstr "progress"), ("index", jnum ((i + j : Nat) : Int)),
                   ("total", jnum total)],
             jobj [("type", jstr "chain_result"), ("index", jnum ((i + j : Nat) : Int)),
                   ("total", jnum total), ("result", chain_result_of (resp j))]]).flatten,
         List.replicate count base,
         (List.range count).map (fun j => chain_result_of (resp j)),
         n + count, false) := by
  intro count
  induction count with
  | zero => intro n i resp _; simp [wsBatch]
  | succ k ih =>
    intro n i resp h
    have h0 : backend n base = Except.ok (resp 0) := by
      have := h 0 (Nat.succ_pos k)
      simpa using this
    have hrec := ih (n + 1) (i + 1) (fun j => resp (j + 1)) (fun j hj => by
      have := h (j + 1) (by omega)
      rw [show n + (j + 1) = n + 1 + j from by omega] at this
      exact this)
    rw [wsBatch]
    simp only [chain_execute, h0, hrec]
    rw [List.range_succ_eq_map, List.map_cons, List.map_map, List.map_cons, List.map_map]
    have hidx : ∀ j : Nat, i + 1 + j = i + (j + 1) := fun j => by omega
    have hn : n + 1 + k = n + (k + 1) := by omega
    simp [Function.comp, hidx, hn, List.replicate_succ]
    congr 1

/-- Claim C2, counterexample: with `times` bound to the non-numeric string
`"abc"`, `int(payload.get("times") or 1)` raises instead of clamping, so the
batch executes nothing — the claim's universal "reads and clamps" fails. -/
theorem C2_claim_counterexample :
    pyGet (jobj [("times", jstr "abc")]) "times" = some (jstr "abc") ∧
    execute_chain_command (fun _ _ => Except.ok ⟨200, "ok"⟩) 0 (jobj [("times", jstr "abc")]) =
      Except.error "int" :=
  ⟨rfl, rfl⟩

/-- Claim C2 (amended): for every payload object whose (truthy) `times` field
`int()`-converts (absent/falsy fields count as 1), the repeat count is clamped
to [1, 50] (so times=100 yields exactly 50 executions), the `times` key is
stripped from the forwarded payload, and — when the backend answers each
call — the calls are made strictly sequentially at consecutive call indices,
each result carrying its 1-based index and the batch total, in index order;
this holds both for `_execute_chain_command` and for the websocket confirm
branch, whose reply reports the count and the number of results. -/
theorem C2_batch_clamp_strip_sequential (backend : Backend) (n : Nat)
    (fs : List (String × JVal)) (t : Int) (resp : Nat → HttpResp)
    (ht : pyTimes (jobj fs) = some t)
    (hb : ∀ j, j < clampTimes t →
      backend (n + j) (jobj (eraseKey fs "times")) = Except.ok (resp j)) :
    execute_chain_command backend n (jobj fs) =
      Except.ok (jobj [("ok", jbool true), ("times", jnum (clampTimes t)),
        ("results", jarr ((List.range (clampTimes t)).map fun j : Nat =>
          jobj [("index", jnum ((1 + j : Nat) : Int)), ("total", jnum (clampTimes t)),
                ("result", chain_result_of (resp j))]))], n + clampTimes t) ∧
    wsConfirmExec backend n (jobj fs) =
      ⟨none,
       jobj [("type", jstr "info"),
         ("message", jstr ("已确认，准备提交 " ++ toString (clampTimes t) ++ " 笔交易…")),
         ("times", jnum (clampTimes t))] ::
         ((List.range (clampTimes t)).map fun j : Nat =>
            [jobj [("type", jstr "progress"), ("index", jnum ((1 + j : Nat) : Int)),
                   ("total", jnum (clampTimes t))],
             jobj [("type", jstr "chain_result"), ("index", jnum ((1 + j : Nat) : Int)),
                   ("total", jnum (clampTimes t)),
                   ("result", chain_result_of (resp j))]]).flatten ++
         [jobj [("type", jstr "done"), ("count", jnum (clampTimes t)),
           ("results_count", jnum (clampTimes t))]],
       List.replicate (clampTimes t) (jobj (eraseKey fs "times")),
       n + clampTimes t, false⟩ ∧
    clampTimes 100 = 50 := by
  refine ⟨?_, ?_, by decide⟩
  · simp only [execute_chain_command, ht]
    rw [runBatch_ok backend (jobj (eraseKey fs "times")) (clampTimes t) (clampTimes t) n 1 resp hb]
  · simp only [wsConfirmExec, ht]
    rw [wsBatch_ok backend (jobj (eraseKey fs "times")) (clampTimes t) (clampTimes t) n 1 resp hb]
    simp

/-- Witness for C2 at `times = 100` with a constantly-answering backend:
exactly 50 sequential executions, indexed 1..50. -/
theorem C2_batch_witness :
    execute_chain_command (fun _ _ => Except.ok ⟨200, "ok"⟩) 0 (jobj [("times", jnum 100)]) =
      Except.ok (jobj [("ok", jbool true), ("times", jnum 50),
        ("results", jarr ((List.range 50).map fun j : Nat =>
          jobj [("index", jnum ((1 + j : Nat) : Int)), ("total", jnum 50),
                ("result", chain_result_of ⟨200, "ok"⟩)]))], 50) :=
  (C2_batch_clamp_strip_sequential (fun _ _ => Except.ok ⟨200, "ok"⟩) 0
    [("times", jnum 100)] 100 (fun _ => ⟨200, "ok"⟩) rfl (fun _ _ => rfl)).1

/-- Claim C5, counterexample: a network error (an `httpx` exception) on the
FIRST item of a two-item batch is not caught anywhere — it aborts the
remaining item and the whole request, and no per-item result is returned,
contrary to the claim's "network error ... does not abort". -/
theorem C5_claim_counterexample :
    execute_chain_command (fun _ _ => Except.error ()) 0 (jobj [("times", jnum 2)]) =
      Except.error "network" :=
  rfl

/-- Claim C5 (amended): within a batch, a backend failure at the HTTP level —
a non-2xx status or a non-JSON response body — does not abort the remaining
items: as long as every call returns an HTTP response (no network exception),
every item's result, including failures, is recorded and returned
independently in order, and the reply reports the clamped attempted count
(`times`) together with all attempted results (`results`, one per attempt);
no separate success count is reported, and a network error aborts the batch. -/
theorem C5_failures_recorded (backend : Backend) (n : Nat)
    (fs : List (String × JVal)) (t : Int)
    (ht : pyTimes (jobj fs) = some t)
    (hb : ∀ j, j < clampTimes t →
      ∃ r, backend (n + j) (jobj (eraseKey fs "times")) = Except.ok r) :
    ∃ entries : List JVal,
      execute_chain_command backend n (jobj fs) =
        Except.ok (jobj [("ok", jbool true), ("times", jnum (clampTimes t)),
          ("results", jarr entries)], n + clampTimes t) ∧
      entries.length = clampTimes t ∧
      ∀ k, k < clampTimes t →
        ∃ r, backend (n + k) (jobj (eraseKey fs "times")) = Except.ok r ∧
          entries.getD k jnull =
            jobj [("index", jnum ((1 + k : Nat) : Int)), ("total", jnum (clampTimes t)),
                  ("result", chain_result_of r)] := by
  classical
  let resp : Nat → HttpResp := fun j =>
    if h : j < clampTimes t then (hb j h).choose else ⟨0, ""⟩
  have hresp : ∀ j, j < clampTimes t →
      backend (n + j) (jobj (eraseKey fs "times")) = Except.ok (resp j) := by
    intro j hj
    show backend (n + j) _ = Except.ok (if h : j < clampTimes t then (hb j h).choose else ⟨0, ""⟩)
    rw [dif_pos hj]
    exact (hb j hj).choose_spec
  refine ⟨(List.range (clampTimes t)).map fun j : Nat =>
    jobj [("index", jnum ((1 + j : Nat) : Int)), ("total", jnum (clampTimes t)),
          ("result", chain_result_of (resp j))], ?_, ?_, ?_⟩
  · simp only [execute_chain_command, ht]
    rw [runBatch_ok backend (jobj (eraseKey fs "times")) (clampTimes t) (clampTimes t) n 1
      resp hresp]
  · simp
  · intro k hk
    refine ⟨resp k, hresp k hk, ?_⟩
    rw [List.getD_eq_getElem?_getD, List.getElem?_map, List.getElem?_range hk]
    rfl

/-- Witness for C5: a backend that always answers HTTP 500 with a non-JSON
body still yields one recorded result per attempted item. -/
theorem C5_failures_recorded_witness :
    ∃ entries : List JVal,
      execute_chain_command (fun _ _ => Except.ok ⟨500, "oops"⟩) 0 (jobj [("times", jnum 2)]) =
        Except.ok (jobj [("ok", jbool true), ("times", jnum 2),
          ("results", jarr entries)], 2) ∧
      entries.length = 2 ∧
      ∀ k, k < 2 →
        ∃ r, (fun (_ : Nat) (_ : JVal) =>
              (Except.ok ⟨500, "oops"⟩ : Except Unit HttpResp)) (0 + k)
            (jobj (eraseKey [("times", jnum 2)] "times")) = Except.ok r ∧
          entries.getD k jnull =
            jobj [("index", jnum ((1 + k : Nat) : Int)), ("total", jnum 2),
                  ("result", chain_result_of r)] :=
  C5_failures_recorded (fun _ _ => Except.ok ⟨500, "oops"⟩) 0 [("times", jnum 2)] 2 rfl
    (fun _ _ => ⟨⟨500, "oops"⟩, rfl⟩)

/-- Claim C3: in the conversation session, a confirm keyword received while no
pending intent is held never triggers any backend execution call (and leaves
no pending intent behind); and a cancel keyword always clears the pending
intent without any backend call — so after a cancel, a subsequent confirm
executes nothing until a new intent is recognized. -/
theorem C3_confirm_cancel_safety :
    (∀ (cfg : ExecutorConfig) (apiKey : Option String) (tests : List String)
        (backend : Backend) (chat : Except Unit HttpResp) (n : Nat) (kw : String),
      kw ∈ confirmKeywords →
      (wsStep cfg apiKey tests backend chat n none kw).calls = [] ∧
      (wsStep cfg apiKey tests backend chat n none kw).pending = none ∧
      (wsStep cfg apiKey tests backend chat n none kw).next = n) ∧
    (∀ (cfg : ExecutorConfig) (apiKey : Option String) (tests : List String)
        (backend : Backend) (chat : Except Unit HttpResp) (n : Nat)
        (pending : Option JVal) (kw : String),
      kw ∈ cancelKeywords →
      (wsStep cfg apiKey tests backend chat n pending kw).calls = [] ∧
      (wsStep cfg apiKey tests backend chat n pending kw).pending = none ∧
      (wsStep cfg apiKey tests backend chat n pending kw).next = n) := by
  constructor
  · intro cfg apiKey tests backend chat n kw hkw
    simp only [confirmKeywords, List.mem_cons, List.not_mem_nil, or_false] at hkw
    rcases hkw with rfl | rfl | rfl | rfl | rfl
    all_goals exact ⟨rfl, rfl, rfl⟩
  · intro cfg apiKey tests backend chat n pending kw hkw
    simp only [cancelKeywords, List.mem_cons, List.not_mem_nil, or_false] at hkw
    rcases hkw with rfl | rfl | rfl | rfl
    all_goals exact ⟨rfl, rfl, rfl⟩

/-- Witness for C3: a concrete confirm keyword with no pending intent makes no
call; a concrete cancel keyword clears a concrete pending intent. -/
theorem C3_confirm_cancel_safety_witness :
    ("确认" ∈ confirmKeywords ∧
      (wsStep defaultConfig none [] (fun _ _ => Except.ok ⟨200, "ok"⟩) (Except.ok ⟨200, "ok"⟩)
        0 none "确认").calls = [] ∧
      (wsStep defaultConfig none [] (fun _ _ => Except.ok ⟨200, "ok"⟩) (Except.ok ⟨200, "ok"⟩)
        0 none "确认").pending = none) ∧
    ("取消" ∈ cancelKeywords ∧
      (wsStep defaultConfig none [] (fun _ _ => Except.ok ⟨200, "ok"⟩) (Except.ok ⟨200, "ok"⟩)
        0 (some (nativeIntent defaultConfig "0x1111111111111111111111111111111111111111" "1" 1))
        "取消").calls = [] ∧
      (wsStep defaultConfig none [] (fun _ _ => Except.ok ⟨200, "ok"⟩) (Except.ok ⟨200, "ok"⟩)
        0 (some (nativeIntent defaultConfig "0x1111111111111111111111111111111111111111" "1" 1))
        "取消").pending = none) :=
  ⟨⟨by decide,
    (C3_confirm_cancel_safety.1 defaultConfig none [] (fun _ _ => Except.ok ⟨200, "ok"⟩)
      (Except.ok ⟨200, "ok"⟩) 0 "确认" (by decide)).1,
    (C3_confirm_cancel_safety.1 defaultConfig none [] (fun _ _ => Except.ok ⟨200, "ok"⟩)
      (Except.ok ⟨200, "ok"⟩) 0 "确认" (by decide)).2.1⟩,
   ⟨by decide,
    (C3_confirm_cancel_safety.2 defaultConfig none [] (fun _ _ => Except.ok ⟨200, "ok"⟩)
      (Except.ok ⟨200, "ok"⟩) 0
      (some (nativeIntent defaultConfig "0x1111111111111111111111111111111111111111" "1" 1))
      "取消" (by decide)).1,
    (C3_confirm_cancel_safety.2 defaultConfig none [] (fun _ _ => Except.ok ⟨200, "ok"⟩)
      (Except.ok ⟨200, "ok"⟩) 0
      (some (nativeIntent defaultConfig "0x1111111111111111111111111111111111111111" "1" 1))
      "取消" (by decide)).2.1⟩⟩

/-- The defaulted, exception-guarded content access of `_extract_commands`
coincides with the structural `choices[0].message.content` path of the
specification. -/
theorem contentStr_eq_claimContent (v : JVal) : contentStr v = claimContent v := by
  cases v
  case jobj fs =>
    simp only [contentStr, claimContent, choicesContent, pyGetAttrD, pyGetD, pyGet]
    cases hc : lookupLast fs "choices"
    case none => simp [hc, pyIndex0, lookupLast]
    case some cv =>
      cases cv
      case jarr items =>
        cases items
        case nil => simp [hc, pyIndex0]
        case cons c0 cs =>
          cases c0
          case jobj ms =>
            cases hm : lookupLast ms "message"
            case none => simp [hc, hm, pyIndex0, pyGet, lookupLast]
            case some mv =>
              cases mv
              case jobj mfs =>
                cases hco : lookupLast mfs "content"
                case none => simp [hc, hm, hco, pyIndex0, pyGet]
                case some cov => cases cov <;> simp [hc, hm, hco, pyIndex0, pyGet]
              all_goals simp [hc, hm, pyIndex0, pyGet]
          all_goals simp [hc, pyIndex0, pyGet]
      case jstr s =>
        cases hs : s.data
        case nil => simp [hc, pyIndex0, hs]
        case cons a t => simp [hc, pyIndex0, hs, pyGet]
      all_goals simp [hc, pyIndex0]
  all_goals simp [contentStr, claimContent, choicesContent, pyGetAttrD, pyGet]

/-- Claim C4: command extraction is total (a function on JSON values that
never raises) and behaves exactly as specified: a top-level object with a
`commands` array yields its elements that are objects with a string `type`,
in order; an OpenAI-style `choices[0].message.content` string is parsed as
JSON and filtered the same way (a single typed object becoming a one-element
list); any other input yields the empty list — including both of the
specification's concrete examples. -/
theorem C4_extraction_total :
    (∀ v : JVal, extract_commands v = extractCommandsClaim v) ∧
    extract_commands (jobj [("commands", jarr
      [jobj [("type", jstr "move")],
       jobj [("type", jstr "chain_execute"), ("value", jobj [("a", jnum 1)])]])]) =
      [jobj [("type", jstr "move")],
       jobj [("type", jstr "chain_execute"), ("value", jobj [("a", jnum 1)])]] ∧
    extract_commands (jobj [("choices", jarr [jobj [("message", jobj
      [("content", jstr "\x7b\"type\":\"chain_execute\",\"value\":\x7b\x7d\x7d")])]])]) =
      [jobj [("type", jstr "chain_execute"), ("value", jobj [])]] := by
  refine ⟨?_, rfl, rfl⟩
  intro v
  cases v
  case jobj fs =>
    cases fs
    case nil => rfl
    case cons kv rest =>
      simp only [extract_commands, extractCommandsClaim, contentStr_eq_claimContent, jtruthy,
        List.isEmpty_cons, Bool.not_false, Bool.true_eq_false, if_false, ite_false]
  all_goals simp [extract_commands, extractCommandsClaim]

/-- Claim C8, counterexample: a command with an explicitly null `value` and a
non-null `payload` does NOT execute with the payload — `dict.get`'s default is
used only for a missing key, so the null value wins and execution rejects it. -/
theorem C8_claim_counterexample :
    pyGet (jobj [("type", jstr "chain_execute"), ("value", jnull),
        ("payload", jobj [("x", jnum 1)])]) "value" = some jnull ∧
    pyGet (jobj [("type", jstr "chain_execute"), ("value", jnull),
        ("payload", jobj [("x", jnum 1)])]) "payload" = some (jobj [("x", jnum 1)]) ∧
    cmdValue (jobj [("type", jstr "chain_execute"), ("value", jnull),
        ("payload", jobj [("x", jnum 1)])]) = jnull ∧
    (∀ fs, jnull ≠ jobj fs) ∧
    executeCommands (fun _ _ => Except.ok ⟨200, "ok"⟩) 0
      [jobj [("type", jstr "chain_execute"), ("value", jnull),
        ("payload", jobj [("x", jnum 1)])]] =
      Except.ok ([jobj [("type", jstr "chain_execute"), ("input", jnull),
        ("output", jobj [("ok", jbool false),
          ("error", jstr "chain_execute payload must be an object")])]], 0) :=
  ⟨rfl, rfl, rfl, fun _ h => JVal.noConfusion h, rfl⟩

/-- Claim C8 (amended): the value forwarded to execution is taken from the
command's `value` field whenever the `value` KEY is present — even when it
holds null — and only when the key is absent from `payload` (null when both
are absent); in the webhook loop, every executed entry's `input` is exactly
this selection. -/
theorem C8_value_key_selection :
    (∀ (c v : JVal), pyGet c "value" = some v → cmdValue c = v) ∧
    (∀ c : JVal, pyGet c "value" = none → cmdValue c = pyGetD c "payload" jnull) ∧
    (∀ (backend : Backend) (n : Nat) (cmds entries : List JVal) (n' : Nat),
      executeCommands backend n cmds = Except.ok (entries, n') →
      entries.map (fun e => pyGetD e "input" jnull) =
        (cmds.filter isChainType).map cmdValue) := by
  refine ⟨fun c v h => by simp [cmdValue, h], fun c h => by simp [cmdValue, h], ?_⟩
  intro backend n cmds
  induction cmds generalizing n with
  | nil =>
    intro entries n' h
    simp only [executeCommands, Except.ok.injEq, Prod.mk.injEq] at h
    obtain ⟨rfl, rfl⟩ := h
    simp
  | cons c rest ih =>
    intro entries n' h
    cases c
    case jobj cf =>
      by_cases hic : isChainType (jobj cf)
      · simp only [executeCommands, hic, if_true] at h
        cases hec : execute_chain_command backend n (cmdValue (jobj cf)) with
        | error e => rw [hec] at h; simp at h
        | ok p =>
          obtain ⟨out, n1⟩ := p
          rw [hec] at h
          dsimp only at h
          cases hrest : executeCommands backend n1 rest with
          | error e => rw [hrest] at h; simp at h
          | ok q =>
            obtain ⟨entries1, n2⟩ := q
            rw [hrest] at h
            simp only [Except.ok.injEq, Prod.mk.injEq] at h
            obtain ⟨he, _⟩ := h
            subst he
            simp only [List.map_cons, List.filter_cons, hic, if_true]
            congr 1
            exact ih n1 entries1 n2 hrest
      · simp only [executeCommands, hic, if_false] at h
        simp only [List.filter_cons, hic, if_false]
        exact ih n entries n' h
    all_goals simp [executeCommands] at h

/-- Witness for C8: the loop's recorded `input` for the null-value command is
the (null) value, not the payload. -/
theorem C8_value_key_selection_witness :
    [jobj [("type", jstr "chain_execute"), ("input", jnull),
      ("output", jobj [("ok", jbool false),
        ("error", jstr "chain_execute payload must be an object")])]].map
        (fun e => pyGetD e "input" jnull) =
      ([jobj [("type", jstr "chain_execute"), ("value", jnull),
        ("payload", jobj [("x", jnum 1)])]].filter isChainType).map cmdValue :=
  C8_value_key_selection.2.2 (fun _ _ => Except.ok ⟨200, "ok"⟩) 0
    [jobj [("type", jstr "chain_execute"), ("value", jnull),
      ("payload", jobj [("x", jnum 1)])]]
    [jobj [("type", jstr "chain_execute"), ("input", jnull),
      ("output", jobj [("ok", jbool false),
        ("error", jstr "chain_execute payload must be an object")])]] 0 rfl

/-- Every entry the webhook command loop records carries the literal type
string `"chain_execute"`, whatever the command's original type was. -/
theorem executeCommands_types (backend : Backend) :
    ∀ (cmds : List JVal) (n : Nat) (entries : List JVal) (n' : Nat),
      executeCommands backend n cmds = Except.ok (entries, n') →
      ∀ e ∈ entries, pyGet e "type" = some (jstr "chain_execute") := by
  intro cmds
  induction cmds with
  | nil =>
    intro n entries n' h
    simp only [executeCommands, Except.ok.injEq, Prod.mk.injEq] at h
    obtain ⟨rfl, rfl⟩ := h
    simp
  | cons c rest ih =>
    intro n entries n' h
    cases c
    case jobj cf =>
      by_cases hic : isChainType (jobj cf)
      · simp only [executeCommands, hic, if_true] at h
        cases hec : execute_chain_command backend n (cmdValue (jobj cf)) with
        | error e => rw [hec] at h; simp at h
        | ok p =>
          obtain ⟨out, n1⟩ := p
          rw [hec] at h
          dsimp only at h
          cases hrest : executeCommands backend n1 rest with
          | error e => rw [hrest] at h; simp at h
          | ok q =>
            obtain ⟨entries1, n2⟩ := q
            rw [hrest] at h
            simp only [Except.ok.injEq, Prod.mk.injEq] at h
            obtain ⟨he, _⟩ := h
            subst he
            intro e he
            rcases List.mem_cons.mp he with rfl | hmem
            · simp [pyGet, lookupLast]
            · exact ih n1 entries1 n2 hrest e hmem
      · simp only [executeCommands, hic, if_false] at h
        exact ih n entries n' h
    all_goals simp [executeCommands] at h

/-- Claim C10: in the `/execute` webhook response, every entry of the
`executed` list carries the literal type string `"chain_execute"` — even when
the extracted command's original type was `"wallet_send"` or `"wallet_sign"`;
the original type is not preserved in the executed record. -/
theorem C10_executed_type_literal :
    (∀ (backend : Backend) (n : Nat) (cmds entries : List JVal) (n' : Nat),
      executeCommands backend n cmds = Except.ok (entries, n') →
      ∀ e ∈ entries, pyGet e "type" = some (jstr "chain_execute")) ∧
    (∀ (secret : String) (enable : Bool) (backend : Backend) (ts sig : Option String)
        (raw : List Nat) (resp : JVal) (es : List JVal),
      executeEndpoint secret enable backend ts sig raw = ExecOutcome.ok resp →
      pyGet resp "executed" = some (jarr es) →
      ∀ e ∈ es, pyGet e "type" = some (jstr "chain_execute")) ∧
    (executeCommands (fun _ _ => Except.ok ⟨200, "ok"⟩) 0
        [jobj [("type", jstr "wallet_send"), ("value", jobj [])]] =
      Except.ok ([jobj [("type", jstr "chain_execute"), ("input", jobj []),
        ("output", jobj [("ok", jbool true), ("times", jnum 1),
          ("results", jarr [jobj [("index", jnum 1), ("total", jnum 1),
            ("result", jobj [("status", jnum 200),
              ("data", jobj [("raw", jstr "ok")])])]])])]], 1) ∧
      "chain_execute" ≠ "wallet_send") := by
  refine ⟨fun backend n cmds entries n' h => executeCommands_types backend cmds n entries n' h,
    ?_, rfl, by decide⟩
  intro secret enable backend ts sig raw resp es h hes
  simp only [executeEndpoint] at h
  cases ha : executeAuth secret ts sig raw with
  | error e0 => rw [ha] at h; simp at h
  | ok body =>
    rw [ha] at h
    dsimp only at h
    cases hj : jsonLoads body with
    | none => rw [hj] at h; simp at h
    | some payload =>
      rw [hj] at h
      dsimp only at h
      cases payload
      case jobj pf =>
        cases enable
        case false =>
          simp only [Bool.false_eq_true, if_false, ite_false] at h
          cases h
          simp only [executeResponse, pyGet, lookupLast] at hes
          simp at hes
          subst hes
          intro e he
          exact absurd he (List.not_mem_nil e)
        case true =>
          simp only [if_true, ite_true] at h
          cases hc : executeCommands backend 0
              (extract_commands (pyGetD (jobj pf) "openmind_response" jnull)) with
          | error e0 => rw [hc] at h; simp at h
          | ok q =>
            obtain ⟨executed, k⟩ := q
            rw [hc] at h
            dsimp only at h
            cases h
            simp only [executeResponse, pyGet, lookupLast] at hes
            simp at hes
            subst hes
            exact executeCommands_types backend _ 0 executed k hc
      all_goals simp at h

/-- Witness for C10: a `wallet_send` command produces an executed entry typed
`chain_execute`. -/
theorem C10_executed_type_literal_witness :
    ∀ e ∈ [jobj [("type", jstr "chain_execute"), ("input", jobj []),
        ("output", jobj [("ok", jbool true), ("times", jnum 1),
          ("results", jarr [jobj [("index", jnum 1), ("total", jnum 1),
            ("result", jobj [("status", jnum 200),
              ("data", jobj [("raw", jstr "ok")])])]])])]],
      pyGet e "type" = some (jstr "chain_execute") :=
  C10_executed_type_literal.1 (fun _ _ => Except.ok ⟨200, "ok"⟩) 0
    [jobj [("type", jstr "wallet_send"), ("value", jobj [])]] _ 1 rfl

/-- The hex rendering of a byte list has two characters per byte. -/
theorem bytesToHex_length : ∀ bs : List Nat, (bytesToHex bs).length = 2 * bs.length := by
  intro bs
  induction bs with
  | nil => rfl
  | cons b t ih =>
    simp only [bytesToHex, String.length] at ih ⊢
    simp only [List.map_cons, List.flatten_cons, List.length_append, List.length_cons,
      List.length_nil] at ih ⊢
    omega

/-- A SHA-256 digest has 32 bytes, whatever the message. -/
theorem sha256_length (msg : List Nat) : (sha256 msg).length = 32 := by
  simp [sha256, wordBytes]

/-- An HMAC-SHA256 hex digest has 64 characters. -/
theorem hmac_hex_length (k d : String) : (hmac_sha256_hex k d).length = 64 := by
  rw [hmac_sha256_hex, bytesToHex_length]
  simp [hmacSha256, sha256_length]

/-- An HMAC-SHA256 hex digest is never the empty string. -/
theorem hmac_hex_ne_empty (k d : String) : hmac_sha256_hex k d ≠ "" := by
  intro h
  have hl := hmac_hex_length k d
  rw [h] at hl
  simp at hl

/-- Claim C1, counterexample: with the timestamp header present but empty, the
endpoint rejects with the 401 "Missing signature headers." outcome even though
the provided signature equals the hex HMAC-SHA256 of timestamp + "." + body —
so "accepts iff the signature matches" does not hold for every header value
(the same happens for an empty shared secret, with a 500 outcome). -/
theorem C1_claim_counterexample :
    executeAuth "s" (some "") (some (hmac_sha256_hex "s" ".ab")) (utf8Bytes "ab") =
      Except.error (HttpError.unauthorized "Missing signature headers.") ∧
    utf8Decode (utf8Bytes "ab") = some "ab" ∧
    hmac_sha256_hex "s" ("" ++ "." ++ "ab") = hmac_sha256_hex "s" ".ab" :=
  ⟨rfl, rfl, rfl⟩

/-- Claim C1 (amended): whenever the shared secret is configured and both
headers carry nonempty values, the endpoint proceeds past authentication iff
the provided signature equals the hex HMAC-SHA256 of
timestamp + "." + body-decoded-as-UTF-8 under the shared secret; moreover any
other signature is rejected with the 401 "Invalid signature." outcome, and so
is any change of timestamp or raw body under which the recomputed digest no
longer equals the signature. -/
theorem C1_auth_iff (secret ts sig : String) (raw : List Nat) (body : String)
    (hsec : secret ≠ "") (hts : ts ≠ "") (hsig : sig ≠ "")
    (hdec : utf8Decode raw = some body) :
    (executeAuth secret (some ts) (some sig) raw = Except.ok body ↔
      sig = hmac_sha256_hex secret (ts ++ "." ++ body)) ∧
    (∀ sig', sig' ≠ "" → sig' ≠ hmac_sha256_hex secret (ts ++ "." ++ body) →
      executeAuth secret (some ts) (some sig') raw =
        Except.error (HttpError.unauthorized "Invalid signature.")) ∧
    (∀ (ts' : String) (raw' : List Nat) (body' : String), ts' ≠ "" →
      utf8Decode raw' = some body' →
      hmac_sha256_hex secret (ts' ++ "." ++ body') ≠ sig →
      executeAuth secret (some ts') (some sig) raw' =
        Except.error (HttpError.unauthorized "Invalid signature.")) := by
  refine ⟨?_, ?_, ?_⟩
  · by_cases he : hmac_sha256_hex secret (ts ++ "." ++ body) = sig <;>
      simp [executeAuth, hsec, hts, hsig, hdec, safe_equal, he]
    exact fun h => he h.symm
  · intro sig' h1 h2
    simp [executeAuth, hsec, hts, h1, hdec, safe_equal, Ne.symm h2]
  · intro ts' raw' body' h1 h2 h3
    simp [executeAuth, hsec, h1, hsig, h2, safe_equal, h3]

/-- Witness for C1: a correctly signed concrete request passes authentication
and yields the decoded body. -/
theorem C1_auth_iff_witness :
    utf8Decode (utf8Bytes "ab") = some "ab" ∧
    executeAuth "k" (some "1") (some (hmac_sha256_hex "k" "1.ab")) (utf8Bytes "ab") =
      Except.ok "ab" :=
  ⟨by decide,
   (C1_auth_iff "k" "1" (hmac_sha256_hex "k" "1.ab") (utf8Bytes "ab") "ab"
     (by decide) (by decide) (hmac_hex_ne_empty "k" "1.ab") (by decide)).1.mpr rfl⟩
